import Mathlib

/-!
Verification of the coupon issuance service.

The development embeds, in Lean, the parts of the service that the
correctness claims are about:

* the cache layer (`app/cache/redis_cluster.py`): key derivation,
  set-if-absent stock initialisation, stock and user-coupon reads, over an
  explicit model of the partitioned KV store (string values and sets, as
  association lists keyed by the full key string);
* the admission script (`app/redis_scripts/coupon_issue_cluster.lua`,
  not shipped in the source tree; modelled from the spec, section 4.A);
* the issuance coordinator (`issue_coupon` in `app/main.py`), with the
  publish outcomes of the event producer made explicit parameters and the
  durable log modelled as the list of records the broker accepted;
* the producer configuration (`app/messaging/kafka_client.py`);
* the event consumer (`consumer/main.py`): per-record processors over a
  model of the relational store, and the poll-process-commit loop body.

The KV store's partition (hash-slot) assignment is embedded as well
(CRC16/XMODEM over the hash tag or the whole key), since one claim is
about key colocation.
-/

namespace CouponSystem

/-- String values stored at KV-store string keys: integers (stock
counters) or plain strings (cached coupon ids). -/
inductive RedisVal where
  | vint (n : Int)
  | vstr (s : String)
deriving DecidableEq, Repr

/-- Association-list store keyed by full key strings; the most recent
binding for a key shadows older ones. -/
abbrev Store (α : Type) := List (String × α)

/-- Read a key from a store. -/
def Store.get {α : Type} (s : Store α) (k : String) : Option α :=
  List.lookup k s

/-- Write a key in a store. -/
def Store.set {α : Type} (s : Store α) (k : String) (v : α) : Store α :=
  (k, v) :: s

/-- State of the KV store: the string keyspace and the set keyspace.
The keys used by the service never collide across the two keyspaces. -/
structure RedisState where
  strings : Store RedisVal
  sets : Store (List String)
deriving DecidableEq, Repr

/-- `CouponCache.get_stock_key` from `app/cache/redis_cluster.py`. -/
def get_stock_key (event_id : String) : String :=
  "coupon:stock:" ++ event_id

/-- `CouponCache.get_participants_key` from `app/cache/redis_cluster.py`. -/
def get_participants_key (event_id : String) : String :=
  "coupon:participants:" ++ event_id

/-- `CouponCache.get_user_coupon_key` from `app/cache/redis_cluster.py`. -/
def get_user_coupon_key (user_id event_id : String) : String :=
  "coupon:user:" ++ user_id ++ ":" ++ event_id

/-- `CouponCache.initialize_stock`: SET with NX — write the stock key only
if absent, report whether this call created it (TTL not modelled). -/
def initialize_stock (r : RedisState) (event_id : String) (stock : Int) :
    RedisState × Bool :=
  let key := get_stock_key event_id
  match r.strings.get key with
  | some _ => (r, false)
  | none => ({ r with strings := r.strings.set key (.vint stock) }, true)

/-- Decoding a stored value as an integer, as `int(stock) if stock else None`
does on the decoded reply (a non-numeric or empty string yields no value). -/
def redisValToInt? : RedisVal → Option Int
  | .vint n => some n
  | .vstr s => s.toInt?

/-- `CouponCache.get_stock`. -/
def get_stock (r : RedisState) (event_id : String) : Option Int :=
  (r.strings.get (get_stock_key event_id)).bind redisValToInt?

/-- `CouponCache.cache_user_coupon`. -/
def cache_user_coupon (r : RedisState) (user_id event_id coupon_id : String) :
    RedisState :=
  { r with strings := r.strings.set (get_user_coupon_key user_id event_id) (.vstr coupon_id) }

/-- `CouponCache.get_user_coupon` (a stored integer would be returned in
its decoded string form). -/
def get_user_coupon (r : RedisState) (user_id event_id : String) : Option String :=
  match r.strings.get (get_user_coupon_key user_id event_id) with
  | some (.vstr s) => some s
  | some (.vint n) => some (toString n)
  | none => none

/-! ### Hash-slot assignment of the clustered KV store

CRC16/XMODEM over the key's hash tag (the substring between the first
open brace and the next close brace, when nonempty), else over the whole
key, reduced modulo 16384. -/

/-- One CRC16/XMODEM shift round. -/
def crc16Round (crc : Nat) : Nat :=
  if crc &&& 0x8000 ≠ 0 then ((crc <<< 1) ^^^ 0x1021) &&& 0xFFFF
  else (crc <<< 1) &&& 0xFFFF

/-- Fold one byte into the CRC16 accumulator. -/
def crc16Byte (crc b : Nat) : Nat :=
  (List.range 8).foldl (fun c _ => crc16Round c) (crc ^^^ ((b &&& 0xFF) <<< 8))

/-- CRC16/XMODEM of a byte sequence. -/
def crc16 (bytes : List Nat) : Nat :=
  bytes.foldl crc16Byte 0

/-- Characters up to (excluding) the first close brace, if one occurs. -/
def upToCloseBrace : List Char → Option (List Char)
  | [] => none
  | c :: rest =>
    if c = Char.ofNat 125 then some []
    else (upToCloseBrace rest).map (fun t => c :: t)

/-- The first hash tag of a key: the characters between the first open
brace and the following close brace, if both occur. -/
def firstHashTag : List Char → Option (List Char)
  | [] => none
  | c :: rest =>
    if c = Char.ofNat 123 then upToCloseBrace rest
    else firstHashTag rest

/-- Whether a key carries a usable (nonempty) hash tag. -/
def hasHashTag (s : String) : Bool :=
  match firstHashTag s.data with
  | some (_ :: _) => true
  | _ => false

/-- The characters actually hashed for slot assignment: the hash tag when
present and nonempty, otherwise the whole key. -/
def effectiveHashChars (l : List Char) : List Char :=
  match firstHashTag l with
  | some (c :: t) => c :: t
  | _ => l

/-- Hash slot of a key in the clustered KV store. -/
def hashSlot (s : String) : Nat :=
  crc16 ((effectiveHashChars s.data).map Char.toNat) % 16384

/-! ### Event producer configuration -/

/-- Producer settings, as passed to the producer constructor in
`KafkaEventProducer.__init__` (`app/messaging/kafka_client.py`). -/
structure ProducerConfig where
  acks : String
  retries : Nat
  max_in_flight_requests_per_connection : Nat
  enable_idempotence : Bool
  batch_size : Nat
  linger_ms : Nat
  compression_type : String
deriving DecidableEq, Repr

/-- The configuration the producer is constructed with. -/
def kafkaProducerConfig : ProducerConfig :=
  { acks := "all"
    retries := 3
    max_in_flight_requests_per_connection := 1
    enable_idempotence := true
    batch_size := 16384
    linger_ms := 10
    compression_type := "snappy" }

/-! ### Admission script -/

/-- Return value of the admission script: `[0, reason]` on failure,
`[1, "SUCCESS", coupon_id, remaining_stock]` on success. -/
inductive ScriptResult where
  | fail (reason : String)
  | success (coupon_id : String) (remaining_stock : Int)
deriving DecidableEq, Repr

/-- Modelled from the spec: the atomic admission script
`app/redis_scripts/coupon_issue_cluster.lua` is loaded by `app/main.py`
but its source is not in the tree; section 4.A gives its semantics.
In order: absent stock key → `STOCK_NOT_INITIALIZED`; user already in the
participant set → `USER_ALREADY_PARTICIPATED`; stock ≤ 0 →
`NO_STOCK_AVAILABLE`; otherwise decrement the stock, add the user to the
participant set and return success with the candidate coupon id and the
new remaining stock. TTL refreshes are not modelled (time-free model). -/
def coupon_issue_script (r : RedisState) (stock_key participants_key : String)
    (user_id coupon_id : String) : RedisState × ScriptResult :=
  match r.strings.get stock_key with
  | none => (r, .fail "STOCK_NOT_INITIALIZED")
  | some v =>
    let participants := (r.sets.get participants_key).getD []
    if user_id ∈ participants then
      (r, .fail "USER_ALREADY_PARTICIPATED")
    else
      let stock := (redisValToInt? v).getD 0
      if stock ≤ 0 then
        (r, .fail "NO_STOCK_AVAILABLE")
      else
        let newStock := stock - 1
        ({ strings := r.strings.set stock_key (.vint newStock)
           sets := r.sets.set participants_key (user_id :: participants) },
         .success coupon_id newStock)

/-! ### Issuance coordinator -/

/-- A record accepted by the broker on the `coupon-events` topic, keyed by
`event_id` (envelope metadata other than type, key and payload elided). -/
inductive Msg where
  | coupon_issued (user_id event_id coupon_id : String)
  | stock_exhausted (event_id : String) (remaining_stock : Int)
deriving DecidableEq, Repr

/-- Coordinator-side system state: the KV store plus the durable log of
records the broker has accepted. -/
structure SysState where
  redis : RedisState
  log : List Msg
deriving DecidableEq, Repr

/-- The `CouponResponse` model returned by `issue_coupon`. -/
structure CouponResponse where
  success : Bool
  message : String
  coupon_id : Option String
  remaining_stock : Option Int
deriving DecidableEq, Repr

/-- The failure-message table of `issue_coupon` (`error_messages.get`). -/
def errorMessage (reason : String) : String :=
  if reason = "USER_ALREADY_PARTICIPATED" then "User already has a coupon for this event"
  else if reason = "NO_STOCK_AVAILABLE" then "No coupons available"
  else if reason = "STOCK_NOT_INITIALIZED" then "Event not found or not active"
  else reason

/-- One issuance request: the caller's ids, the fresh coupon id the
coordinator generates, and the outcomes of the two possible broker
publishes (true = acknowledged, false = publish failed). -/
structure Req where
  user_id : String
  event_id : String
  coupon_id : String
  pub_issued : Bool
  pub_exhausted : Bool
deriving DecidableEq, Repr

/-- The seeding step of `issue_coupon` (`app/main.py` lines 99-100):
initialise the stock key with the default 1000 when the cache read
reports no stock. -/
def seed_if_absent (r : RedisState) (event_id : String) : RedisState :=
  if (get_stock r event_id).isNone then (initialize_stock r event_id 1000).1 else r

/-- `issue_coupon` from `app/main.py`: seed the stock key with the default
1000 when absent, run the admission script on the derived keys, then on
success publish `coupon_issued` (failure only logged), publish
`stock_exhausted` when the returned remaining stock is ≤ 0, and shape the
response; on failure map the reason and attach the current cache stock. -/
def issue_coupon (st : SysState) (rq : Req) : SysState × CouponResponse :=
  let r1 := seed_if_absent st.redis rq.event_id
  let stock_key := get_stock_key rq.event_id
  let participants_key := get_participants_key rq.event_id
  let scriptOut := coupon_issue_script r1 stock_key participants_key rq.user_id rq.coupon_id
  match scriptOut.2 with
  | .success cid remaining =>
    let log1 := if rq.pub_issued
                then st.log ++ [Msg.coupon_issued rq.user_id rq.event_id cid]
                else st.log
    let log2 := if remaining ≤ 0 ∧ rq.pub_exhausted
                then log1 ++ [Msg.stock_exhausted rq.event_id remaining]
                else log1
    ({ redis := scriptOut.1, log := log2 },
     { success := true, message := "Coupon issued successfully"
       coupon_id := some cid, remaining_stock := some remaining })
  | .fail reason =>
    ({ redis := scriptOut.1, log := st.log },
     { success := false, message := errorMessage reason
       coupon_id := none, remaining_stock := get_stock scriptOut.1 rq.event_id })

/-- Run a sequence of issuance requests, collecting the responses. -/
def runAll (st : SysState) : List Req → SysState × List CouponResponse
  | [] => (st, [])
  | rq :: rest =>
    let out := issue_coupon st rq
    let outs := runAll out.1 rest
    (outs.1, out.2 :: outs.2)

/-- The user-coupon lookup endpoint `get_user_coupon` in `app/main.py`:
the cached coupon when present, else a "No coupon found" body. -/
def get_user_coupon_endpoint (r : RedisState) (user_id event_id : String) :
    Option String × String :=
  match get_user_coupon r user_id event_id with
  | some c => (some c, "")
  | none => (none, "No coupon found")

/-! ### Event consumer (`consumer/main.py`) -/

/-- A `user_coupons` row, as the consumer writes it. -/
structure UserCouponRow where
  coupon_id : String
  user_id : String
  event_id : String
  issued_at : String
  is_used : Bool
  used_at : Option String
deriving DecidableEq, Repr

/-- A `coupon_usage` row. -/
structure CouponUsageRow where
  coupon_id : String
  user_id : String
  event_id : String
  used_at : String
deriving DecidableEq, Repr

/-- A `coupon_events` row, restricted to the columns the consumer touches. -/
structure CouponEventRow where
  event_id : String
  remaining_stock : Int
  is_active : Bool
deriving DecidableEq, Repr

/-- The relational state the consumer materialises. -/
structure DBState where
  user_coupons : List UserCouponRow
  coupon_usage : List CouponUsageRow
  coupon_events : List CouponEventRow
deriving DecidableEq, Repr

/-- A record polled from the `coupon-events` topic, dispatched on its
`event_type` with the payload fields each processor reads. -/
inductive ConsumedEvent where
  | issued (user_id event_id coupon_id issued_at : String)
  | redeemed (user_id event_id coupon_id redeemed_at : String)
  | exhausted (event_id : String) (remaining_stock : Int)
  | unknown (event_type : String)
deriving DecidableEq, Repr

/-- Update the first list element satisfying `p` (SQLAlchemy `.first()`
followed by a field update and commit). -/
def updateFirst {α : Type} (p : α → Bool) (f : α → α) : List α → List α
  | [] => []
  | x :: xs => if p x then f x :: xs else x :: updateFirst p f xs

/-- `CouponEventProcessor.process_coupon_issued`: insert the row; a
unique-constraint violation on `coupon_id` or on `(user_id, event_id)`
rolls back and is treated as success (duplicate delivery). -/
def process_coupon_issued (db : DBState)
    (user_id event_id coupon_id issued_at : String) : DBState × Bool :=
  if db.user_coupons.any (fun r =>
      r.coupon_id = coupon_id ∨ (r.user_id = user_id ∧ r.event_id = event_id))
  then (db, true)
  else
    ({ db with user_coupons := db.user_coupons ++
        [{ coupon_id := coupon_id, user_id := user_id, event_id := event_id
           issued_at := issued_at, is_used := false, used_at := none }] },
     true)

/-- `CouponEventProcessor.process_coupon_redeemed`: mark the coupon used
and insert a usage row; no-op failure when the coupon row is absent. -/
def process_coupon_redeemed (db : DBState)
    (user_id event_id coupon_id redeemed_at : String) : DBState × Bool :=
  if db.user_coupons.any (fun r => r.coupon_id = coupon_id) then
    ({ db with
        user_coupons := updateFirst (fun r => r.coupon_id = coupon_id)
          (fun r => { r with is_used := true, used_at := some redeemed_at })
          db.user_coupons
        coupon_usage := db.coupon_usage ++
          [{ coupon_id := coupon_id, user_id := user_id, event_id := event_id
             used_at := redeemed_at }] },
     true)
  else (db, false)

/-- `CouponEventProcessor.process_stock_exhausted`: set the event row's
remaining stock and deactivate it; failure when the row is absent. -/
def process_stock_exhausted (db : DBState)
    (event_id : String) (remaining_stock : Int) : DBState × Bool :=
  if db.coupon_events.any (fun r => r.event_id = event_id) then
    ({ db with
        coupon_events := updateFirst (fun r => r.event_id = event_id)
          (fun r => { r with remaining_stock := remaining_stock, is_active := false })
          db.coupon_events },
     true)
  else (db, false)

/-- `CouponEventProcessor.process_event`: dispatch on the record type;
unknown types are reported as failures. -/
def process_event (db : DBState) : ConsumedEvent → DBState × Bool
  | .issued u e c t => process_coupon_issued db u e c t
  | .redeemed u e c t => process_coupon_redeemed db u e c t
  | .exhausted e n => process_stock_exhausted db e n
  | .unknown _ => (db, false)

/-- Process every record of a polled batch in order, collecting each
record's success flag. -/
def processBatch (db : DBState) : List ConsumedEvent → DBState × List Bool
  | [] => (db, [])
  | ev :: rest =>
    let out := process_event db ev
    let outs := processBatch out.1 rest
    (outs.1, out.2 :: outs.2)

/-- One iteration of `CouponEventProcessor.run`: when the poll returned
records, process them all and commit offsets exactly when the success
count equals the batch size; the boolean reports whether offsets were
committed. -/
def consumeIteration (db : DBState) (events : List ConsumedEvent) :
    DBState × Bool :=
  if events.isEmpty then (db, false)
  else
    let out := processBatch db events
    (out.1, decide (out.2.count true = events.length))

/-- Replay a log through the consumer, keeping only the relational state
(success flags discarded, as redelivery semantics replays records). -/
def applyLog (db : DBState) (log : List ConsumedEvent) : DBState :=
  log.foldl (fun d ev => (process_event d ev).1) db

/-- Participant set of an event, as the script reads it. -/
def participantsOf (st : SysState) (event_id : String) : List String :=
  (st.redis.sets.get (get_participants_key event_id)).getD []

/-- Number of requests for `(u, e)` answered with a success response, over
the paired request/response lists of a run. -/
def issuedSuccessCount (u e : String) (prs : List (Req × CouponResponse)) : Nat :=
  (prs.filter (fun p => p.1.user_id = u ∧ p.1.event_id = e ∧ p.2.success = true)).length

/-- Whether a log record is a `stock_exhausted` record for the event. -/
def isStockExhaustedFor (e : String) : Msg → Bool
  | .stock_exhausted e' _ => e' = e
  | _ => false

/-! ### Store and key lemmas -/

theorem Store.get_set_self {α : Type} (s : Store α) (k : String) (v : α) :
    (s.set k v).get k = some v := by
  simp [Store.get, Store.set, List.lookup]

theorem Store.get_set_ne {α : Type} (s : Store α) (k k' : String) (v : α)
    (h : k' ≠ k) : (s.set k v).get k' = s.get k' := by
  have hb : (k' == k) = false := beq_eq_false_iff_ne.mpr h
  simp [Store.get, Store.set, List.lookup, hb]

theorem string_append_left_cancel (p a b : String) (h : p ++ a = p ++ b) : a = b := by
  have h2 : ("".data : List Char) ++ (p ++ a).data = "".data ++ (p ++ b).data := by rw [h]
  rw [String.data_append, String.data_append] at h2
  have h3 : a.data = b.data := by
    simpa using List.append_cancel_left h2
  cases a; cases b; simp_all

theorem get_stock_key_inj (a b : String) (h : get_stock_key a = get_stock_key b) :
    a = b :=
  string_append_left_cancel "coupon:stock:" a b h

theorem get_participants_key_inj (a b : String)
    (h : get_participants_key a = get_participants_key b) : a = b :=
  string_append_left_cancel "coupon:participants:" a b h

theorem user_coupon_key_ne_stock_key (u e e' : String) :
    get_user_coupon_key u e ≠ get_stock_key e' := by
  intro h
  have h2 := congrArg String.data h
  simp only [get_user_coupon_key, get_stock_key, String.data_append] at h2
  simp at h2

/-! ### Seeding lemmas -/

theorem seed_noop_of_present (r : RedisState) (e : String) (v : RedisVal)
    (h : r.strings.get (get_stock_key e) = some v) : seed_if_absent r e = r := by
  unfold seed_if_absent
  split
  · unfold initialize_stock
    simp [h]
  · rfl

theorem seed_sets (r : RedisState) (e : String) :
    (seed_if_absent r e).sets = r.sets := by
  unfold seed_if_absent
  split
  · unfold initialize_stock
    cases h : r.strings.get (get_stock_key e) <;> simp [h]
  · rfl

theorem seed_stock_present (r : RedisState) (e : String) :
    (seed_if_absent r e).strings.get (get_stock_key e) =
      some ((r.strings.get (get_stock_key e)).getD (.vint 1000)) := by
  cases h : r.strings.get (get_stock_key e) with
  | some v => rw [seed_noop_of_present r e v h, h]; rfl
  | none =>
    unfold seed_if_absent
    have hn : (get_stock r e).isNone := by simp [get_stock, h]
    rw [if_pos hn]
    unfold initialize_stock
    simp [h, Store.get_set_self]

theorem seed_strings_other (r : RedisState) (e : String) (k : String)
    (hk : k ≠ get_stock_key e) :
    (seed_if_absent r e).strings.get k = r.strings.get k := by
  unfold seed_if_absent
  split
  · unfold initialize_stock
    cases h : r.strings.get (get_stock_key e) with
    | some v => simp [h]
    | none => simp [h, Store.get_set_ne _ _ _ _ hk]
  · rfl

/-! ### Admission-script lemmas -/

theorem script_fail_state (r : RedisState) (sk pk u c m : String)
    (h : (coupon_issue_script r sk pk u c).2 = .fail m) :
    (coupon_issue_script r sk pk u c).1 = r := by
  unfold coupon_issue_script at h ⊢
  cases hv : r.strings.get sk with
  | none => rfl
  | some v =>
    simp only [hv] at h ⊢
    split_ifs at h ⊢ with h1 h2 <;> rfl

theorem script_member (r : RedisState) (sk pk u c : String) (v : RedisVal)
    (hv : r.strings.get sk = some v) (hm : u ∈ (r.sets.get pk).getD []) :
    coupon_issue_script r sk pk u c = (r, .fail "USER_ALREADY_PARTICIPATED") := by
  unfold coupon_issue_script
  simp [hv, hm]

theorem script_nostock (r : RedisState) (sk pk u c : String) (v : RedisVal)
    (hv : r.strings.get sk = some v) (hm : u ∉ (r.sets.get pk).getD [])
    (hs : (redisValToInt? v).getD 0 ≤ 0) :
    coupon_issue_script r sk pk u c = (r, .fail "NO_STOCK_AVAILABLE") := by
  unfold coupon_issue_script
  simp [hv, hm, hs]

theorem script_success (r : RedisState) (sk pk u c : String) (v : RedisVal)
    (hv : r.strings.get sk = some v) (hm : u ∉ (r.sets.get pk).getD [])
    (hs : 0 < (redisValToInt? v).getD 0) :
    coupon_issue_script r sk pk u c =
      ({ strings := r.strings.set sk (.vint ((redisValToInt? v).getD 0 - 1))
         sets := r.sets.set pk (u :: (r.sets.get pk).getD []) },
       .success c ((redisValToInt? v).getD 0 - 1)) := by
  unfold coupon_issue_script
  simp [hv, hm, not_le.mpr hs]

theorem script_sets_mono (r : RedisState) (sk pk u c : String) (k x : String)
    (h : x ∈ (r.sets.get k).getD []) :
    x ∈ ((coupon_issue_script r sk pk u c).1.sets.get k).getD [] := by
  unfold coupon_issue_script
  cases hv : r.strings.get sk with
  | none => exact h
  | some v =>
    simp only []
    split_ifs with h1 h2
    · exact h
    · exact h
    · by_cases hk : k = pk
      · subst hk
        simp [Store.get_set_self]
        right
        simpa using h
      · simpa [Store.get_set_ne _ _ _ _ hk] using h

theorem script_success_mem (r : RedisState) (sk pk u c : String)
    (cid : String) (rem : Int)
    (h : (coupon_issue_script r sk pk u c).2 = .success cid rem) :
    u ∈ ((coupon_issue_script r sk pk u c).1.sets.get pk).getD [] := by
  unfold coupon_issue_script at h ⊢
  cases hv : r.strings.get sk with
  | none => simp [hv] at h
  | some v =>
    simp only [hv] at h ⊢
    split_ifs at h ⊢ with h1 h2
    all_goals simp [Store.get_set_self]

theorem script_strings_other (r : RedisState) (sk pk u c : String) (k : String)
    (hk : k ≠ sk) :
    (coupon_issue_script r sk pk u c).1.strings.get k = r.strings.get k := by
  unfold coupon_issue_script
  cases hv : r.strings.get sk with
  | none => rfl
  | some v =>
    simp only []
    split_ifs with h1 h2
    · rfl
    · rfl
    · simp [Store.get_set_ne _ _ _ _ hk]

/-! ### Issuance-coordinator lemmas -/

theorem issue_redis_eq_script (st : SysState) (rq : Req) :
    (issue_coupon st rq).1.redis =
      (coupon_issue_script (seed_if_absent st.redis rq.event_id)
        (get_stock_key rq.event_id) (get_participants_key rq.event_id)
        rq.user_id rq.coupon_id).1 := by
  unfold issue_coupon
  cases h : (coupon_issue_script (seed_if_absent st.redis rq.event_id)
      (get_stock_key rq.event_id) (get_participants_key rq.event_id)
      rq.user_id rq.coupon_id).2 <;> simp [h]

theorem issue_sets_mono (st : SysState) (rq : Req) (k x : String)
    (h : x ∈ (st.redis.sets.get k).getD []) :
    x ∈ ((issue_coupon st rq).1.redis.sets.get k).getD [] := by
  rw [issue_redis_eq_script]
  apply script_sets_mono
  rw [seed_sets]
  exact h

theorem issue_success_mem (st : SysState) (rq : Req)
    (h : (issue_coupon st rq).2.success = true) :
    rq.user_id ∈ participantsOf (issue_coupon st rq).1 rq.event_id := by
  unfold participantsOf
  rw [issue_redis_eq_script]
  cases hs : (coupon_issue_script (seed_if_absent st.redis rq.event_id)
      (get_stock_key rq.event_id) (get_participants_key rq.event_id)
      rq.user_id rq.coupon_id).2 with
  | fail m =>
    exfalso
    simp only [issue_coupon] at h
    rw [hs] at h
    simp at h
  | success cid rem => exact script_success_mem _ _ _ _ _ cid rem hs

theorem issue_member_blocked (st : SysState) (rq : Req)
    (hm : rq.user_id ∈ participantsOf st rq.event_id) :
    (issue_coupon st rq).2.success = false
    ∧ (issue_coupon st rq).2.message = "User already has a coupon for this event"
    ∧ (∀ v, st.redis.strings.get (get_stock_key rq.event_id) = some v →
        (issue_coupon st rq).1.redis.strings.get (get_stock_key rq.event_id) = some v)
    ∧ (issue_coupon st rq).1.redis.sets = st.redis.sets := by
  have hpresent := seed_stock_present st.redis rq.event_id
  have hm1 : rq.user_id ∈
      ((seed_if_absent st.redis rq.event_id).sets.get
        (get_participants_key rq.event_id)).getD [] := by
    rw [seed_sets]; exact hm
  have hscript := script_member (seed_if_absent st.redis rq.event_id)
    (get_stock_key rq.event_id) (get_participants_key rq.event_id)
    rq.user_id rq.coupon_id _ hpresent hm1
  refine ⟨?_, ?_, ?_, ?_⟩
  · simp [issue_coupon, hscript]
  · simp [issue_coupon, hscript]
    rfl
  · intro v hv
    rw [issue_redis_eq_script, hscript]
    rw [seed_noop_of_present st.redis rq.event_id v hv]
    exact hv
  · rw [issue_redis_eq_script, hscript]
    rw [seed_sets]

theorem issue_strings_other (st : SysState) (rq : Req) (k : String)
    (hk : k ≠ get_stock_key rq.event_id) :
    (issue_coupon st rq).1.redis.strings.get k = st.redis.strings.get k := by
  rw [issue_redis_eq_script]
  rw [script_strings_other _ _ _ _ _ _ hk]
  exact seed_strings_other _ _ _ hk

theorem issue_step_success (st : SysState) (rq : Req) (n : Int)
    (hv : st.redis.strings.get (get_stock_key rq.event_id) = some (.vint n))
    (hn : 0 < n)
    (hm : rq.user_id ∉ participantsOf st rq.event_id) :
    issue_coupon st rq =
      ({ redis :=
          { strings := st.redis.strings.set (get_stock_key rq.event_id) (.vint (n - 1))
            sets := st.redis.sets.set (get_participants_key rq.event_id)
              (rq.user_id :: (st.redis.sets.get (get_participants_key rq.event_id)).getD []) }
         log :=
          (if n - 1 ≤ 0 ∧ rq.pub_exhausted = true then
            (if rq.pub_issued = true then
              st.log ++ [Msg.coupon_issued rq.user_id rq.event_id rq.coupon_id] else st.log)
            ++ [Msg.stock_exhausted rq.event_id (n - 1)]
          else
            (if rq.pub_issued = true then
              st.log ++ [Msg.coupon_issued rq.user_id rq.event_id rq.coupon_id] else st.log)) },
       { success := true, message := "Coupon issued successfully"
         coupon_id := some rq.coupon_id, remaining_stock := some (n - 1) }) := by
  have hseed := seed_noop_of_present st.redis rq.event_id _ hv
  have hm1 : rq.user_id ∉
      ((seed_if_absent st.redis rq.event_id).sets.get
        (get_participants_key rq.event_id)).getD [] := by
    rw [seed_sets]; exact hm
  have hv1 : (seed_if_absent st.redis rq.event_id).strings.get
      (get_stock_key rq.event_id) = some (.vint n) := by
    rw [hseed]; exact hv
  have hval : (redisValToInt? (RedisVal.vint n)).getD 0 = n := rfl
  have hscript := script_success (seed_if_absent st.redis rq.event_id)
    (get_stock_key rq.event_id) (get_participants_key rq.event_id)
    rq.user_id rq.coupon_id _ hv1 hm1 (by rw [hval]; exact hn)
  rw [hval] at hscript
  rw [hseed] at hscript
  simp only [issue_coupon, hscript, hseed]

theorem issue_step_nostock (st : SysState) (rq : Req) (n : Int)
    (hv : st.redis.strings.get (get_stock_key rq.event_id) = some (.vint n))
    (hn : n ≤ 0)
    (hm : rq.user_id ∉ participantsOf st rq.event_id) :
    issue_coupon st rq =
      ({ redis := st.redis, log := st.log },
       { success := false, message := "No coupons available"
         coupon_id := none, remaining_stock := some n }) := by
  have hseed := seed_noop_of_present st.redis rq.event_id _ hv
  have hm1 : rq.user_id ∉
      ((seed_if_absent st.redis rq.event_id).sets.get
        (get_participants_key rq.event_id)).getD [] := by
    rw [seed_sets]; exact hm
  have hv1 : (seed_if_absent st.redis rq.event_id).strings.get
      (get_stock_key rq.event_id) = some (.vint n) := by
    rw [hseed]; exact hv
  have hscript := script_nostock (seed_if_absent st.redis rq.event_id)
    (get_stock_key rq.event_id) (get_participants_key rq.event_id)
    rq.user_id rq.coupon_id _ hv1 hm1 (by simpa using hn)
  rw [hseed] at hscript
  simp only [issue_coupon, hscript, hseed]
  simp [errorMessage, get_stock, hv, redisValToInt?]

/-! ### Run lemmas -/

theorem runAll_append (st : SysState) (xs ys : List Req) :
    runAll st (xs ++ ys) =
      ((runAll (runAll st xs).1 ys).1,
       (runAll st xs).2 ++ (runAll (runAll st xs).1 ys).2) := by
  induction xs generalizing st with
  | nil => simp [runAll]
  | cons rq rest ih => simp [runAll, ih]

theorem runAll_sets_mono (st : SysState) (reqs : List Req) (k x : String)
    (h : x ∈ (st.redis.sets.get k).getD []) :
    x ∈ ((runAll st reqs).1.redis.sets.get k).getD [] := by
  induction reqs generalizing st with
  | nil => exact h
  | cons rq rest ih =>
    exact ih (issue_coupon st rq).1 (issue_sets_mono st rq k x h)

theorem issuedSuccessCount_cons (u e : String) (rq : Req) (r : CouponResponse)
    (prs : List (Req × CouponResponse)) :
    issuedSuccessCount u e ((rq, r) :: prs) =
      (if rq.user_id = u ∧ rq.event_id = e ∧ r.success = true then 1 else 0)
      + issuedSuccessCount u e prs := by
  simp only [issuedSuccessCount, List.filter_cons]
  split_ifs with h1 h2 h3
  all_goals simp_all
  all_goals omega

theorem successCount_zero_of_mem (u e : String) (st : SysState) (reqs : List Req)
    (hm : u ∈ participantsOf st e) :
    issuedSuccessCount u e (reqs.zip (runAll st reqs).2) = 0 := by
  induction reqs generalizing st with
  | nil => simp [issuedSuccessCount, runAll]
  | cons rq rest ih =>
    have hmono : u ∈ participantsOf (issue_coupon st rq).1 e :=
      issue_sets_mono st rq _ u hm
    have htail := ih (issue_coupon st rq).1 hmono
    simp only [runAll, List.zip_cons_cons, issuedSuccessCount_cons, htail, Nat.add_zero]
    by_cases hmatch : rq.user_id = u ∧ rq.event_id = e
    · have hmem : rq.user_id ∈ participantsOf st rq.event_id := by
        rw [hmatch.1, hmatch.2]; exact hm
      have hfail := (issue_member_blocked st rq hmem).1
      simp [hfail]
    · rw [if_neg]
      intro hc
      exact absurd ⟨hc.1, hc.2.1⟩ hmatch

theorem successCount_le_one (u e : String) (st : SysState) (reqs : List Req) :
    issuedSuccessCount u e (reqs.zip (runAll st reqs).2) ≤ 1 := by
  induction reqs generalizing st with
  | nil => simp [issuedSuccessCount, runAll]
  | cons rq rest ih =>
    simp only [runAll, List.zip_cons_cons, issuedSuccessCount_cons]
    by_cases hmatch : rq.user_id = u ∧ rq.event_id = e ∧
        (issue_coupon st rq).2.success = true
    · have hmem : u ∈ participantsOf (issue_coupon st rq).1 e := by
        have := issue_success_mem st rq hmatch.2.2
        rw [hmatch.1, hmatch.2.1] at this
        exact this
      have hz := successCount_zero_of_mem u e (issue_coupon st rq).1 rest hmem
      simp [hmatch, hz]
    · have h0 : (if rq.user_id = u ∧ rq.event_id = e ∧
          (issue_coupon st rq).2.success = true then 1 else 0) = 0 := by
        simp [hmatch]
      rw [h0, Nat.zero_add]
      exact ih (issue_coupon st rq).1

/-- C1: per-user uniqueness. In any sequential run of issuance requests,
at most one request for a given `(user, event)` pair is answered with
`success = true`; and any attempt for the same pair made after a
successful one — with arbitrary other requests in between — is answered
`success = false` with message "User already has a coupon for this event"
and leaves the event's stock entry unchanged. -/
theorem c1_per_user_uniqueness
    (st₀ : SysState) (reqs : List Req) (u e : String)
    (st : SysState) (mid : List Req) (rq rq' : Req)
    (hqu : rq.user_id = u) (hqe : rq.event_id = e)
    (hqu' : rq'.user_id = u) (hqe' : rq'.event_id = e)
    (hsuc : (issue_coupon st rq).2.success = true) :
    issuedSuccessCount u e (reqs.zip (runAll st₀ reqs).2) ≤ 1
    ∧ (issue_coupon ((runAll (issue_coupon st rq).1 mid).1) rq').2.success = false
    ∧ (issue_coupon ((runAll (issue_coupon st rq).1 mid).1) rq').2.message =
        "User already has a coupon for this event"
    ∧ ∀ v, ((runAll (issue_coupon st rq).1 mid).1).redis.strings.get (get_stock_key e) = some v →
        (issue_coupon ((runAll (issue_coupon st rq).1 mid).1) rq').1.redis.strings.get
          (get_stock_key e) = some v := by
  have hmem1 : u ∈ participantsOf (issue_coupon st rq).1 e := by
    have := issue_success_mem st rq hsuc
    rw [hqu, hqe] at this
    exact this
  have hmem2 : u ∈ participantsOf ((runAll (issue_coupon st rq).1 mid).1) e :=
    runAll_sets_mono (issue_coupon st rq).1 mid _ u hmem1
  have hmem2' : rq'.user_id ∈
      participantsOf ((runAll (issue_coupon st rq).1 mid).1) rq'.event_id := by
    rw [hqu', hqe']; exact hmem2
  have hblock := issue_member_blocked ((runAll (issue_coupon st rq).1 mid).1) rq' hmem2'
  refine ⟨successCount_le_one u e st₀ reqs, hblock.1, hblock.2.1, ?_⟩
  intro v hv
  have := hblock.2.2.1 v
  rw [hqe'] at this
  exact this hv

/-- Concrete instance of the C1 theorem: a stock-2 event, user `u1`
succeeds once, and the immediate retry is refused with the duplicate
message and the stock still at 1. -/
theorem c1_per_user_uniqueness_witness :
    (issue_coupon ⟨⟨[("coupon:stock:e1", RedisVal.vint 2)], []⟩, []⟩
        ⟨"u1", "e1", "c1", true, true⟩).2.success = true
    ∧ issuedSuccessCount "u1" "e1"
        ([⟨"u1", "e1", "c1", true, true⟩, ⟨"u1", "e1", "c2", true, true⟩].zip
          (runAll ⟨⟨[("coupon:stock:e1", RedisVal.vint 2)], []⟩, []⟩
            [⟨"u1", "e1", "c1", true, true⟩, ⟨"u1", "e1", "c2", true, true⟩]).2) ≤ 1
    ∧ (issue_coupon
        ((runAll (issue_coupon ⟨⟨[("coupon:stock:e1", RedisVal.vint 2)], []⟩, []⟩
            ⟨"u1", "e1", "c1", true, true⟩).1 []).1)
        ⟨"u1", "e1", "c2", true, true⟩).2.success = false
    ∧ (issue_coupon
        ((runAll (issue_coupon ⟨⟨[("coupon:stock:e1", RedisVal.vint 2)], []⟩, []⟩
            ⟨"u1", "e1", "c1", true, true⟩).1 []).1)
        ⟨"u1", "e1", "c2", true, true⟩).2.message =
          "User already has a coupon for this event"
    ∧ (issue_coupon
        ((runAll (issue_coupon ⟨⟨[("coupon:stock:e1", RedisVal.vint 2)], []⟩, []⟩
            ⟨"u1", "e1", "c1", true, true⟩).1 []).1)
        ⟨"u1", "e1", "c2", true, true⟩).1.redis.strings.get (get_stock_key "e1") =
          some (.vint 1) := by
  have h := c1_per_user_uniqueness
    ⟨⟨[("coupon:stock:e1", RedisVal.vint 2)], []⟩, []⟩
    [⟨"u1", "e1", "c1", true, true⟩, ⟨"u1", "e1", "c2", true, true⟩]
    "u1" "e1"
    ⟨⟨[("coupon:stock:e1", RedisVal.vint 2)], []⟩, []⟩ []
    ⟨"u1", "e1", "c1", true, true⟩ ⟨"u1", "e1", "c2", true, true⟩
    rfl rfl rfl rfl (by decide)
  exact ⟨by decide, h.1, h.2.1, h.2.2.1, h.2.2.2 (.vint 1) (by decide)⟩

theorem run_drain (e : String) (reqs : List Req) :
    ∀ (st : SysState) (s : Nat),
    st.redis.strings.get (get_stock_key e) = some (.vint (s : Int)) →
    (∀ rq ∈ reqs, rq.event_id = e) →
    (reqs.map Req.user_id).Nodup →
    (∀ rq ∈ reqs, rq.user_id ∉ participantsOf st e) →
    ((runAll st reqs).2.filter (fun r => r.success)).length = min reqs.length s
    ∧ ((runAll st reqs).2.filter (fun r => r.success = false)).length
        = reqs.length - min reqs.length s
    ∧ (∀ r ∈ (runAll st reqs).2, r.success = false → r.message = "No coupons available")
    ∧ (runAll st reqs).1.redis.strings.get (get_stock_key e)
        = some (.vint ((s - min reqs.length s : Nat) : Int)) := by
  induction reqs with
  | nil =>
    intro st s hstock _ _ _
    simpa [runAll] using hstock
  | cons rq rest ih =>
    intro st s hstock hev hnd hfresh
    have hev0 : rq.event_id = e := hev rq (List.mem_cons_self rq rest)
    have hfresh0 : rq.user_id ∉ participantsOf st rq.event_id := by
      rw [hev0]; exact hfresh rq (List.mem_cons_self rq rest)
    have hev1 : ∀ rq' ∈ rest, rq'.event_id = e :=
      fun rq' h => hev rq' (List.mem_cons_of_mem rq h)
    have hnd1 : (rest.map Req.user_id).Nodup := (List.nodup_cons.mp hnd).2
    have hnd0 : rq.user_id ∉ rest.map Req.user_id := (List.nodup_cons.mp hnd).1
    cases s with
    | zero =>
      have hstep := issue_step_nostock st rq 0
        (by rw [hev0]; exact_mod_cast hstock) le_rfl hfresh0
      have hout1 : (issue_coupon st rq).1 = st := by rw [hstep]
      have hrest := ih st 0 (by exact_mod_cast hstock) hev1 hnd1
        (fun rq' h => hfresh rq' (List.mem_cons_of_mem rq h))
      simp only [runAll, hout1]
      constructor
      · simp only [List.filter_cons]
        have : (issue_coupon st rq).2.success = false := by rw [hstep]
        simp [this, hrest.1]
      constructor
      · have h21 : (List.filter (fun r => !r.success) (runAll st rest).2).length
            = rest.length - min rest.length 0 := by simpa using hrest.2.1
        have hfalse : (issue_coupon st rq).2.success = false := by rw [hstep]
        simp only [List.filter_cons, List.length_cons]
        simp [hfalse, h21]
      constructor
      · intro r hr hrf
        rcases List.mem_cons.mp hr with h | h
        · rw [h, hstep]
        · exact hrest.2.2.1 r h hrf
      · simpa using hrest.2.2.2
    | succ k =>
      have hpos : (0 : Int) < ((k + 1 : Nat) : Int) := by exact_mod_cast Nat.succ_pos k
      have hstep := issue_step_success st rq ((k + 1 : Nat) : Int)
        (by rw [hev0]; exact_mod_cast hstock) hpos hfresh0
      have hcast : ((k + 1 : Nat) : Int) - 1 = ((k : Nat) : Int) := by push_cast; ring
      have hstock1 : (issue_coupon st rq).1.redis.strings.get (get_stock_key e)
          = some (.vint ((k : Nat) : Int)) := by
        rw [hstep]
        simp only [hev0]
        rw [hcast]
        exact Store.get_set_self _ _ _
      have hparts1 : participantsOf (issue_coupon st rq).1 e
          = rq.user_id :: participantsOf st e := by
        unfold participantsOf
        rw [hstep]
        simp only [hev0]
        rw [Store.get_set_self]
        rfl
      have hfresh1 : ∀ rq' ∈ rest, rq'.user_id ∉ participantsOf (issue_coupon st rq).1 e := by
        intro rq' h
        rw [hparts1]
        intro hin
        rcases List.mem_cons.mp hin with heq | hold
        · exact hnd0 (heq ▸ List.mem_map_of_mem Req.user_id h)
        · exact hfresh rq' (List.mem_cons_of_mem rq h) hold
      have hrest := ih (issue_coupon st rq).1 k hstock1 hev1 hnd1 hfresh1
      have hsucc : (issue_coupon st rq).2.success = true := by rw [hstep]
      have hminS : min (rest.length + 1) (k + 1) = min rest.length k + 1 :=
        Nat.succ_min_succ rest.length k
      simp only [runAll]
      constructor
      · simp only [List.filter_cons, hsucc, List.length_cons]
        simp only [List.length_cons] at hminS ⊢
        simp [hrest.1, hminS]
      constructor
      · have h21 : (List.filter (fun r => !r.success)
              (runAll (issue_coupon st rq).1 rest).2).length
            = rest.length - min rest.length k := by simpa using hrest.2.1
        have hlen : (rest.length + 1) - min (rest.length + 1) (k + 1)
            = rest.length - min rest.length k := by omega
        simp only [List.filter_cons, hsucc, List.length_cons]
        simp [h21, hlen]
      constructor
      · intro r hr hrf
        rcases List.mem_cons.mp hr with h | h
        · rw [h] at hrf; rw [hsucc] at hrf; simp at hrf
        · exact hrest.2.2.1 r h hrf
      · have hfin : (k - min rest.length k : Nat)
            = ((k + 1) - min (rest.length + 1) (k + 1) : Nat) := by omega
        simpa [List.length_cons, hfin] using hrest.2.2.2

/-- C2: stock conservation. For an event whose stock key holds `S` and a
sequence of `N ≥ S` requests by distinct users not yet admitted, exactly
`S` requests are answered with success, the other `N − S` fail with the
`NO_STOCK_AVAILABLE` message, the final stock is 0, and the stock value
observed after any prefix of the run is never negative. -/
theorem c2_stock_conservation (st : SysState) (e : String) (S : Nat) (reqs : List Req)
    (hstock : st.redis.strings.get (get_stock_key e) = some (.vint (S : Int)))
    (hev : ∀ rq ∈ reqs, rq.event_id = e)
    (hnd : (reqs.map Req.user_id).Nodup)
    (hfresh : ∀ rq ∈ reqs, rq.user_id ∉ participantsOf st e)
    (hN : S ≤ reqs.length) :
    ((runAll st reqs).2.filter (fun r => r.success)).length = S
    ∧ ((runAll st reqs).2.filter (fun r => r.success = false)).length = reqs.length - S
    ∧ (∀ r ∈ (runAll st reqs).2, r.success = false → r.message = "No coupons available")
    ∧ get_stock (runAll st reqs).1.redis e = some 0
    ∧ (∀ pre suf, reqs = pre ++ suf →
        ∀ v, get_stock (runAll st pre).1.redis e = some v → 0 ≤ v) := by
  have hmain := run_drain e reqs st S hstock hev hnd hfresh
  have hmin : min reqs.length S = S := Nat.min_eq_right hN
  refine ⟨by rw [hmain.1, hmin], by rw [hmain.2.1, hmin], hmain.2.2.1, ?_, ?_⟩
  · have := hmain.2.2.2
    rw [hmin, Nat.sub_self] at this
    simp [get_stock, this, redisValToInt?]
  · intro pre suf hsplit v hv
    have hevp : ∀ rq ∈ pre, rq.event_id = e := by
      intro rq h; exact hev rq (hsplit ▸ List.mem_append_left suf h)
    have hndp : (pre.map Req.user_id).Nodup := by
      rw [hsplit] at hnd
      simp only [List.map_append] at hnd
      exact hnd.of_append_left
    have hfreshp : ∀ rq ∈ pre, rq.user_id ∉ participantsOf st e := by
      intro rq h; exact hfresh rq (hsplit ▸ List.mem_append_left suf h)
    have hpre := (run_drain e pre st S hstock hevp hndp hfreshp).2.2.2
    rw [get_stock, hpre] at hv
    simp [redisValToInt?] at hv
    omega

/-- Concrete instance of the C2 theorem: stock 2, three distinct users —
two successes, one `NO_STOCK_AVAILABLE`, final stock 0, and the stock
seen after the first request (value 1) is non-negative. -/
theorem c2_stock_conservation_witness :
    ((runAll ⟨⟨[("coupon:stock:e1", RedisVal.vint 2)], []⟩, []⟩
        [⟨"u1", "e1", "c1", true, true⟩, ⟨"u2", "e1", "c2", true, true⟩,
         ⟨"u3", "e1", "c3", true, true⟩]).2.filter (fun r => r.success)).length = 2
    ∧ ((runAll ⟨⟨[("coupon:stock:e1", RedisVal.vint 2)], []⟩, []⟩
        [⟨"u1", "e1", "c1", true, true⟩, ⟨"u2", "e1", "c2", true, true⟩,
         ⟨"u3", "e1", "c3", true, true⟩]).2.filter (fun r => r.success = false)).length = 1
    ∧ get_stock (runAll ⟨⟨[("coupon:stock:e1", RedisVal.vint 2)], []⟩, []⟩
        [⟨"u1", "e1", "c1", true, true⟩, ⟨"u2", "e1", "c2", true, true⟩,
         ⟨"u3", "e1", "c3", true, true⟩]).1.redis "e1" = some 0
    ∧ (0 : Int) ≤ 1 := by
  have h := c2_stock_conservation
    ⟨⟨[("coupon:stock:e1", RedisVal.vint 2)], []⟩, []⟩ "e1" 2
    [⟨"u1", "e1", "c1", true, true⟩, ⟨"u2", "e1", "c2", true, true⟩,
     ⟨"u3", "e1", "c3", true, true⟩]
    (by decide) (by decide) (by decide) (by decide) (by decide)
  exact ⟨h.1, h.2.1, h.2.2.2.1,
    h.2.2.2.2 [⟨"u1", "e1", "c1", true, true⟩]
      [⟨"u2", "e1", "c2", true, true⟩, ⟨"u3", "e1", "c3", true, true⟩]
      rfl 1 (by decide)⟩

set_option maxRecDepth 8192 in
/-- C3 (refuted — evaluation of the key derivation at event id `e1`):
the derived keys contain no hash tag at all (the derivation interpolates
`event_id` into the key instead of embedding a brace-delimited tag), so
slot assignment hashes the full, differing keys and the stock key and
participant-set key of the same event land on different partitions
(slots 6013 and 2767 of 16384). -/
theorem c3_no_hash_tag_no_colocation :
    get_stock_key "e1" = "coupon:stock:e1"
    ∧ get_participants_key "e1" = "coupon:participants:e1"
    ∧ hasHashTag (get_stock_key "e1") = false
    ∧ hasHashTag (get_participants_key "e1") = false
    ∧ hashSlot (get_stock_key "e1") = 6013
    ∧ hashSlot (get_participants_key "e1") = 2767
    ∧ hashSlot (get_stock_key "e1") ≠ hashSlot (get_participants_key "e1") := by
  refine ⟨rfl, rfl, by decide, by decide, by decide, by decide, by decide⟩

/-- C4: `initialize_stock` writes the stock key only when absent, returns
true exactly when this call created the key, and leaves both the stored
value and the whole store untouched when the key already exists. -/
theorem c4_initialize_stock_set_if_absent (r : RedisState) (e : String) (n : Int) :
    ((initialize_stock r e n).2 = true ↔ r.strings.get (get_stock_key e) = none)
    ∧ (∀ v, r.strings.get (get_stock_key e) = some v →
        (initialize_stock r e n).1 = r ∧ (initialize_stock r e n).2 = false)
    ∧ (r.strings.get (get_stock_key e) = none →
        (initialize_stock r e n).1.strings.get (get_stock_key e) = some (.vint n)
        ∧ (initialize_stock r e n).2 = true) := by
  refine ⟨?_, ?_, ?_⟩
  · unfold initialize_stock
    cases h : r.strings.get (get_stock_key e) <;> simp [h]
  · intro v hv
    unfold initialize_stock
    simp [hv]
  · intro hv
    unfold initialize_stock
    simp [hv, Store.get_set_self]

/-- Concrete instance of the C4 theorem: creating a fresh key stores the
value and reports true; re-initialising an existing key reports false and
changes nothing. -/
theorem c4_initialize_stock_set_if_absent_witness :
    ((initialize_stock ⟨[], []⟩ "e1" 5).1.strings.get (get_stock_key "e1")
        = some (.vint 5)
      ∧ (initialize_stock ⟨[], []⟩ "e1" 5).2 = true)
    ∧ ((initialize_stock ⟨[("coupon:stock:e1", RedisVal.vint 5)], []⟩ "e1" 77).1
        = ⟨[("coupon:stock:e1", RedisVal.vint 5)], []⟩
      ∧ (initialize_stock ⟨[("coupon:stock:e1", RedisVal.vint 5)], []⟩ "e1" 77).2 = false) :=
  ⟨(c4_initialize_stock_set_if_absent ⟨[], []⟩ "e1" 5).2.2 (by decide),
   (c4_initialize_stock_set_if_absent
      ⟨[("coupon:stock:e1", RedisVal.vint 5)], []⟩ "e1" 77).2.1
     (RedisVal.vint 5) (by decide)⟩

/-- C7: the event publisher is constructed waiting for acknowledgement
from all in-sync replicas, one in-flight request per connection,
idempotence enabled, at least 3 retries, and a compression codec from
the allowed set. -/
theorem c7_producer_configuration :
    kafkaProducerConfig.acks = "all"
    ∧ kafkaProducerConfig.max_in_flight_requests_per_connection = 1
    ∧ kafkaProducerConfig.enable_idempotence = true
    ∧ 3 ≤ kafkaProducerConfig.retries
    ∧ (kafkaProducerConfig.compression_type = "none"
       ∨ kafkaProducerConfig.compression_type = "snappy"
       ∨ kafkaProducerConfig.compression_type = "lz4") := by
  refine ⟨rfl, rfl, rfl, by decide, Or.inr (Or.inl rfl)⟩

/-- C5: publish-after-commit. When the admission script reports success,
the coordinator answers the caller with `success = true`, the issued
coupon id and the remaining stock, and its KV state is exactly the
script's post-state — independently of the outcomes of the broker
publishes, which therefore can neither turn the committed admission into
a caller-visible failure nor roll back the decrement or the
participant-set insert. -/
theorem c5_publish_after_commit (st : SysState) (rq : Req) (cid : String) (rem : Int)
    (hs : (coupon_issue_script (seed_if_absent st.redis rq.event_id)
        (get_stock_key rq.event_id) (get_participants_key rq.event_id)
        rq.user_id rq.coupon_id).2 = .success cid rem) :
    (issue_coupon st rq).2 =
      { success := true, message := "Coupon issued successfully"
        coupon_id := some cid, remaining_stock := some rem }
    ∧ (issue_coupon st rq).1.redis =
        (coupon_issue_script (seed_if_absent st.redis rq.event_id)
          (get_stock_key rq.event_id) (get_participants_key rq.event_id)
          rq.user_id rq.coupon_id).1
    ∧ ∀ pi px : Bool,
        (issue_coupon st { rq with pub_issued := pi, pub_exhausted := px }).2
          = (issue_coupon st rq).2
        ∧ (issue_coupon st { rq with pub_issued := pi, pub_exhausted := px }).1.redis
          = (issue_coupon st rq).1.redis := by
  have hresp : (issue_coupon st rq).2 =
      { success := true, message := "Coupon issued successfully"
        coupon_id := some cid, remaining_stock := some rem } := by
    simp only [issue_coupon]
    rw [hs]
  refine ⟨hresp, issue_redis_eq_script st rq, ?_⟩
  intro pi px
  have hs' : (coupon_issue_script
      (seed_if_absent st.redis ({ rq with pub_issued := pi, pub_exhausted := px } : Req).event_id)
      (get_stock_key ({ rq with pub_issued := pi, pub_exhausted := px } : Req).event_id)
      (get_participants_key ({ rq with pub_issued := pi, pub_exhausted := px } : Req).event_id)
      ({ rq with pub_issued := pi, pub_exhausted := px } : Req).user_id
      ({ rq with pub_issued := pi, pub_exhausted := px } : Req).coupon_id).2
      = .success cid rem := hs
  have hresp' : (issue_coupon st { rq with pub_issued := pi, pub_exhausted := px }).2 =
      { success := true, message := "Coupon issued successfully"
        coupon_id := some cid, remaining_stock := some rem } := by
    simp only [issue_coupon]
    rw [hs']
  constructor
  · rw [hresp', hresp]
  · rw [issue_redis_eq_script st rq,
      issue_redis_eq_script st { rq with pub_issued := pi, pub_exhausted := px }]

/-- Concrete instance of the C5 theorem: both publishes fail, yet the
caller sees success with the coupon id and remaining stock, and the
response equals the one produced when both publishes succeed. -/
theorem c5_publish_after_commit_witness :
    (issue_coupon ⟨⟨[("coupon:stock:e1", RedisVal.vint 5)], []⟩, []⟩
        ⟨"u1", "e1", "c1", false, false⟩).2 =
      { success := true, message := "Coupon issued successfully"
        coupon_id := some "c1", remaining_stock := some 4 }
    ∧ (issue_coupon ⟨⟨[("coupon:stock:e1", RedisVal.vint 5)], []⟩, []⟩
        ⟨"u1", "e1", "c1", true, true⟩).2 =
      (issue_coupon ⟨⟨[("coupon:stock:e1", RedisVal.vint 5)], []⟩, []⟩
        ⟨"u1", "e1", "c1", false, false⟩).2 := by
  have h := c5_publish_after_commit
    ⟨⟨[("coupon:stock:e1", RedisVal.vint 5)], []⟩, []⟩
    ⟨"u1", "e1", "c1", false, false⟩ "c1" 4 (by decide)
  exact ⟨h.1, (h.2.2 true true).1⟩

theorem run_drain_log (e : String) (reqs : List Req) :
    ∀ (st : SysState),
    st.redis.strings.get (get_stock_key e) = some (.vint (reqs.length : Int)) →
    reqs ≠ [] →
    (∀ rq ∈ reqs, rq.event_id = e ∧ rq.pub_issued = true ∧ rq.pub_exhausted = true) →
    (reqs.map Req.user_id).Nodup →
    (∀ rq ∈ reqs, rq.user_id ∉ participantsOf st e) →
    (runAll st reqs).1.log =
      st.log ++ reqs.map (fun rq => Msg.coupon_issued rq.user_id e rq.coupon_id)
        ++ [Msg.stock_exhausted e 0] := by
  induction reqs with
  | nil => intro st _ hne; exact absurd rfl hne
  | cons rq rest ih =>
    intro st hstock _ hflags hnd hfresh
    have hf0 := hflags rq (List.mem_cons_self rq rest)
    have hev0 : rq.event_id = e := hf0.1
    have hfresh0 : rq.user_id ∉ participantsOf st rq.event_id := by
      rw [hev0]; exact hfresh rq (List.mem_cons_self rq rest)
    have hpos : (0 : Int) < ((rest.length + 1 : Nat) : Int) := by
      exact_mod_cast Nat.succ_pos rest.length
    have hstep := issue_step_success st rq ((rest.length + 1 : Nat) : Int)
      (by rw [hev0]; exact_mod_cast hstock) hpos hfresh0
    have hcast : ((rest.length + 1 : Nat) : Int) - 1 = ((rest.length : Nat) : Int) := by
      push_cast; ring
    cases rest with
    | nil =>
      have hle : ((0 + 1 : Nat) : Int) - 1 ≤ 0 := by norm_num
      simp only [runAll]
      rw [hstep]
      simp [hf0.2.1, hf0.2.2, hev0]
    | cons rq2 rest2 =>
      have hnle : ¬(((rq2 :: rest2).length + 1 : Nat) : Int) - 1 ≤ 0 := by
        rw [hcast]
        simp
      have hlog1 : (issue_coupon st rq).1.log =
          st.log ++ [Msg.coupon_issued rq.user_id rq.event_id rq.coupon_id] := by
        rw [hstep]
        simp [hf0.2.1, hnle]
      have hstock1 : (issue_coupon st rq).1.redis.strings.get (get_stock_key e)
          = some (.vint ((rq2 :: rest2).length : Int)) := by
        rw [hstep]
        simp only [hev0]
        rw [hcast]
        exact Store.get_set_self _ _ _
      have hparts1 : participantsOf (issue_coupon st rq).1 e
          = rq.user_id :: participantsOf st e := by
        unfold participantsOf
        rw [hstep]
        simp only [hev0]
        rw [Store.get_set_self]
        rfl
      have hnd1 : ((rq2 :: rest2).map Req.user_id).Nodup := (List.nodup_cons.mp hnd).2
      have hnd0 : rq.user_id ∉ (rq2 :: rest2).map Req.user_id := (List.nodup_cons.mp hnd).1
      have hfresh1 : ∀ rq' ∈ rq2 :: rest2,
          rq'.user_id ∉ participantsOf (issue_coupon st rq).1 e := by
        intro rq' h
        rw [hparts1]
        intro hin
        rcases List.mem_cons.mp hin with heq | hold
        · exact hnd0 (heq ▸ List.mem_map_of_mem Req.user_id h)
        · exact hfresh rq' (List.mem_cons_of_mem rq h) hold
      have hrest := ih (issue_coupon st rq).1 hstock1 (by simp)
        (fun rq' h => hflags rq' (List.mem_cons_of_mem rq h)) hnd1 hfresh1
      have hcons : (runAll st (rq :: rq2 :: rest2)).1
          = (runAll (issue_coupon st rq).1 (rq2 :: rest2)).1 := rfl
      rw [hcons, hrest, hlog1, hev0]
      simp

/-- C6: exhaustion event. First conjunct: whenever the script reports
success with remaining stock ≤ 0 and both publishes are acknowledged,
the coordinator appends the `coupon_issued` record and then one
`stock_exhausted` record keyed by the event. Second conjunct: draining an
event seeded with stock `S` by `S` distinct fresh users, starting from an
empty log, yields exactly the `S` `coupon_issued` records followed by a
single `stock_exhausted` record for that event. -/
theorem c6_exhaustion_event :
    (∀ (st : SysState) (rq : Req) (cid : String) (rem : Int),
      rq.pub_issued = true → rq.pub_exhausted = true →
      (coupon_issue_script (seed_if_absent st.redis rq.event_id)
        (get_stock_key rq.event_id) (get_participants_key rq.event_id)
        rq.user_id rq.coupon_id).2 = .success cid rem →
      rem ≤ 0 →
      (issue_coupon st rq).1.log =
        st.log ++ [Msg.coupon_issued rq.user_id rq.event_id cid,
                   Msg.stock_exhausted rq.event_id rem])
    ∧ (∀ (e : String) (reqs : List Req) (st : SysState),
      st.redis.strings.get (get_stock_key e) = some (.vint (reqs.length : Int)) →
      st.log = [] →
      reqs ≠ [] →
      (∀ rq ∈ reqs, rq.event_id = e ∧ rq.pub_issued = true ∧ rq.pub_exhausted = true) →
      (reqs.map Req.user_id).Nodup →
      (∀ rq ∈ reqs, rq.user_id ∉ participantsOf st e) →
      (runAll st reqs).1.log =
        reqs.map (fun rq => Msg.coupon_issued rq.user_id e rq.coupon_id)
          ++ [Msg.stock_exhausted e 0]
      ∧ ((runAll st reqs).1.log.countP (isStockExhaustedFor e)) = 1) := by
  constructor
  · intro st rq cid rem hpi hpx hs hrem
    simp only [issue_coupon]
    rw [hs]
    simp [hpi, hpx, hrem]
  · intro e reqs st hstock hlog hne hflags hnd hfresh
    have hshape := run_drain_log e reqs st hstock hne hflags hnd hfresh
    rw [hlog] at hshape
    simp only [List.nil_append] at hshape
    refine ⟨hshape, ?_⟩
    rw [hshape]
    rw [List.countP_append]
    have hz : (reqs.map (fun rq => Msg.coupon_issued rq.user_id e rq.coupon_id)).countP
        (isStockExhaustedFor e) = 0 := by
      rw [List.countP_eq_zero]
      intro m hm
      rcases List.mem_map.mp hm with ⟨rq, _, hrq⟩
      rw [← hrq]
      simp [isStockExhaustedFor]
    rw [hz]
    simp [isStockExhaustedFor]

/-- Concrete instance of the C6 theorem: stock 2, two users drain the
event — the log is the two `coupon_issued` records followed by exactly
one `stock_exhausted` record for `e5`. -/
theorem c6_exhaustion_event_witness :
    (runAll ⟨⟨[("coupon:stock:e5", RedisVal.vint 2)], []⟩, []⟩
        [⟨"u1", "e5", "c1", true, true⟩, ⟨"u2", "e5", "c2", true, true⟩]).1.log =
      [Msg.coupon_issued "u1" "e5" "c1", Msg.coupon_issued "u2" "e5" "c2",
       Msg.stock_exhausted "e5" 0]
    ∧ ((runAll ⟨⟨[("coupon:stock:e5", RedisVal.vint 2)], []⟩, []⟩
        [⟨"u1", "e5", "c1", true, true⟩, ⟨"u2", "e5", "c2", true, true⟩]).1.log.countP
          (isStockExhaustedFor "e5")) = 1 := by
  have h := c6_exhaustion_event.2 "e5"
    [⟨"u1", "e5", "c1", true, true⟩, ⟨"u2", "e5", "c2", true, true⟩]
    ⟨⟨[("coupon:stock:e5", RedisVal.vint 2)], []⟩, []⟩
    (by decide) rfl (by decide) (by decide) (by decide) (by decide)
  exact ⟨h.1, h.2⟩

/-- C10: the issuance path never writes the per-user coupon cache. Every
`issue_coupon` call — successful or not — leaves every
`coupon:user:...` key unchanged, so a pair with no cached coupon before
the call still reads `none` afterwards and the user-coupon lookup
endpoint reports no coupon found. -/
theorem c10_issue_never_writes_user_coupon_cache (st : SysState) (rq : Req) :
    (∀ u' e', (issue_coupon st rq).1.redis.strings.get (get_user_coupon_key u' e')
        = st.redis.strings.get (get_user_coupon_key u' e'))
    ∧ (∀ u' e', get_user_coupon st.redis u' e' = none →
        get_user_coupon (issue_coupon st rq).1.redis u' e' = none
        ∧ get_user_coupon_endpoint (issue_coupon st rq).1.redis u' e'
            = (none, "No coupon found")) := by
  have hframe : ∀ u' e', (issue_coupon st rq).1.redis.strings.get (get_user_coupon_key u' e')
      = st.redis.strings.get (get_user_coupon_key u' e') := by
    intro u' e'
    exact issue_strings_other st rq _ (user_coupon_key_ne_stock_key u' e' rq.event_id)
  refine ⟨hframe, ?_⟩
  intro u' e' hnone
  have hkey : st.redis.strings.get (get_user_coupon_key u' e') = none := by
    unfold get_user_coupon at hnone
    cases h : st.redis.strings.get (get_user_coupon_key u' e') with
    | none => rfl
    | some v => cases v <;> simp [h] at hnone
  have h2 : get_user_coupon (issue_coupon st rq).1.redis u' e' = none := by
    unfold get_user_coupon
    rw [hframe u' e', hkey]
  exact ⟨h2, by unfold get_user_coupon_endpoint; rw [h2]⟩

/-- Concrete instance of the C10 theorem: immediately after a successful
issuance for `(u1, e1)`, the per-user coupon cache for that pair still
reads `none` and the lookup endpoint answers "No coupon found". -/
theorem c10_issue_never_writes_user_coupon_cache_witness :
    get_user_coupon (issue_coupon ⟨⟨[("coupon:stock:e1", RedisVal.vint 5)], []⟩, []⟩
        ⟨"u1", "e1", "c1", true, true⟩).1.redis "u1" "e1" = none
    ∧ get_user_coupon_endpoint (issue_coupon ⟨⟨[("coupon:stock:e1", RedisVal.vint 5)], []⟩, []⟩
        ⟨"u1", "e1", "c1", true, true⟩).1.redis "u1" "e1" = (none, "No coupon found") :=
  (c10_issue_never_writes_user_coupon_cache
      ⟨⟨[("coupon:stock:e1", RedisVal.vint 5)], []⟩, []⟩
      ⟨"u1", "e1", "c1", true, true⟩).2 "u1" "e1" (by decide)

theorem processBatch_length (db : DBState) (events : List ConsumedEvent) :
    (processBatch db events).2.length = events.length := by
  induction events generalizing db with
  | nil => rfl
  | cons ev rest ih => simp [processBatch, ih]

/-- C8: commit-iff-all-succeed. For a non-empty polled batch, one
iteration of the consumer loop commits offsets exactly when every record
of the batch was processed successfully; any failed record leaves the
whole batch uncommitted. -/
theorem c8_commit_iff_all_succeed (db : DBState) (events : List ConsumedEvent)
    (hne : events ≠ []) :
    (consumeIteration db events).2 = true
      ↔ ∀ f ∈ (processBatch db events).2, f = true := by
  have hempty : events.isEmpty = false := by
    cases events with
    | nil => exact absurd rfl hne
    | cons a l => rfl
  unfold consumeIteration
  rw [hempty]
  simp only [Bool.false_eq_true, if_false, decide_eq_true_eq]
  rw [← processBatch_length db events, List.count_eq_length]
  constructor
  · intro h f hf
    exact (h f hf).symm
  · intro h f hf
    exact (h f hf).symm

/-- Concrete instance of the C8 theorem at a two-record batch that fully
succeeds, hence commits. -/
theorem c8_commit_iff_all_succeed_witness :
    ([ConsumedEvent.issued "u1" "e1" "c1" "t1",
      ConsumedEvent.redeemed "u1" "e1" "c1" "t2"] ≠ ([] : List ConsumedEvent))
    ∧ ((consumeIteration ⟨[], [], []⟩
          [ConsumedEvent.issued "u1" "e1" "c1" "t1",
           ConsumedEvent.redeemed "u1" "e1" "c1" "t2"]).2 = true
        ↔ ∀ f ∈ (processBatch ⟨[], [], []⟩
            [ConsumedEvent.issued "u1" "e1" "c1" "t1",
             ConsumedEvent.redeemed "u1" "e1" "c1" "t2"]).2, f = true) :=
  ⟨by decide,
   c8_commit_iff_all_succeed ⟨[], [], []⟩
     [ConsumedEvent.issued "u1" "e1" "c1" "t1",
      ConsumedEvent.redeemed "u1" "e1" "c1" "t2"] (by decide)⟩

/-- C9 (refuted — evaluation of the consumer at a failing log): replaying
the two-record log issued(u1,e1,c1); redeemed(u1,e1,c1) a second time is
not absorbed: the `coupon_issued` record is deduplicated by the unique
constraint, but reprocessing the `coupon_redeemed` record inserts a
second `coupon_usage` row, so the final relational state differs from a
single replay (2 usage rows instead of 1). -/
theorem c9_replay_not_idempotent :
    applyLog (applyLog ⟨[], [], []⟩
        [ConsumedEvent.issued "u1" "e1" "c1" "t1",
         ConsumedEvent.redeemed "u1" "e1" "c1" "t2"])
      [ConsumedEvent.issued "u1" "e1" "c1" "t1",
       ConsumedEvent.redeemed "u1" "e1" "c1" "t2"]
    ≠ applyLog ⟨[], [], []⟩
        [ConsumedEvent.issued "u1" "e1" "c1" "t1",
         ConsumedEvent.redeemed "u1" "e1" "c1" "t2"]
    ∧ (applyLog (applyLog ⟨[], [], []⟩
        [ConsumedEvent.issued "u1" "e1" "c1" "t1",
         ConsumedEvent.redeemed "u1" "e1" "c1" "t2"])
      [ConsumedEvent.issued "u1" "e1" "c1" "t1",
       ConsumedEvent.redeemed "u1" "e1" "c1" "t2"]).coupon_usage.length = 2
    ∧ (applyLog ⟨[], [], []⟩
        [ConsumedEvent.issued "u1" "e1" "c1" "t1",
         ConsumedEvent.redeemed "u1" "e1" "c1" "t2"]).coupon_usage.length = 1
    ∧ (applyLog (applyLog ⟨[], [], []⟩
        [ConsumedEvent.issued "u1" "e1" "c1" "t1",
         ConsumedEvent.redeemed "u1" "e1" "c1" "t2"])
      [ConsumedEvent.issued "u1" "e1" "c1" "t1",
       ConsumedEvent.redeemed "u1" "e1" "c1" "t2"]).user_coupons.length = 1 := by
  refine ⟨by decide, by decide, by decide, by decide⟩

end CouponSystem
